import Mathlib

/-!
Shallow embedding of the value-exchange and execution-control core of the
artichoke repository, covering:

- `src/artichoke-backend/src/extn/core/time/args.rs` (`TimeArgs`,
  `as_time_args`),
- `src/artichoke-backend/src/convert.rs` (blanket fallible converters),
- `src/artichoke-backend/src/eval.rs` (`Eval::eval` post-call handling),
- `src/artichoke-backend/src/parser.rs` (`Parser` impl for `Artichoke`).

Rust `i64` components are embedded as `Int`; the `as u8` / `as u32` casts
that the source performs under range guards are embedded as `Int.emod` by
the corresponding power of two, so that the absence of wrapping is proved
rather than assumed. Fallible Rust functions return `Except RubyError`;
functions that may additionally panic (`todo!`, `unimplemented!`) return
the three-valued `Outcome`.
-/

/-- A structured Ruby-level error: an exception class name together with its
message. Corresponds to the `Error` values built via
`ArgumentError::with_message` / `ArgumentError::from` in the source. -/
structure RubyError where
  name : String
  message : String
deriving DecidableEq, Repr

/-- Embedding of `ArgumentError::with_message(msg).into()`. -/
def ArgumentError.with_message (msg : String) : RubyError :=
  { name := "ArgumentError", message := msg }

/-- Outcome of a Rust function that may return normally, return an `Err`,
or panic (`todo!` / `unimplemented!`). -/
inductive Outcome (α : Type) where
  | ok (value : α)
  | raised (err : RubyError)
  | panicked (msg : String)
deriving DecidableEq, Repr

/-- Embedding of the `TimeArgs` struct from
`src/artichoke-backend/src/extn/core/time/args.rs`: seven `i64` components
in order year, month, day, hour, minute, second, micros. -/
structure TimeArgs where
  year : Int
  month : Int
  day : Int
  hour : Int
  minute : Int
  second : Int
  micros : Int
deriving DecidableEq, Repr

/-- Embedding of `impl Default for TimeArgs`: year 0, month 1, day 1,
hour 0, minute 0, second 0, micros 0. -/
def TimeArgs.default : TimeArgs :=
  { year := 0, month := 1, day := 1, hour := 0, minute := 0, second := 0, micros := 0 }

/-- Embedding of `TimeArgs::month`: range-check `1..=12`, then `as u8`
(embedded as `emod 2^8`); otherwise `ArgumentError("mon out of range")`. -/
def TimeArgs.monthChecked (t : TimeArgs) : Except RubyError Int :=
  if 1 ≤ t.month ∧ t.month ≤ 12 then
    Except.ok (Int.emod t.month 256)
  else
    Except.error (ArgumentError.with_message "mon out of range")

/-- Embedding of `TimeArgs::day`: range-check `1..=31`, then `as u8`;
otherwise `ArgumentError("mday out of range")`. -/
def TimeArgs.dayChecked (t : TimeArgs) : Except RubyError Int :=
  if 1 ≤ t.day ∧ t.day ≤ 31 then
    Except.ok (Int.emod t.day 256)
  else
    Except.error (ArgumentError.with_message "mday out of range")

/-- Embedding of `TimeArgs::hour`: range-check `0..=23`, then `as u8`;
otherwise `ArgumentError("hour out of range")`. -/
def TimeArgs.hourChecked (t : TimeArgs) : Except RubyError Int :=
  if 0 ≤ t.hour ∧ t.hour ≤ 23 then
    Except.ok (Int.emod t.hour 256)
  else
    Except.error (ArgumentError.with_message "hour out of range")

/-- Embedding of `TimeArgs::minute`: range-check `0..=59`, then `as u8`;
otherwise `ArgumentError("min out of range")`. -/
def TimeArgs.minuteChecked (t : TimeArgs) : Except RubyError Int :=
  if 0 ≤ t.minute ∧ t.minute ≤ 59 then
    Except.ok (Int.emod t.minute 256)
  else
    Except.error (ArgumentError.with_message "min out of range")

/-- Embedding of `TimeArgs::second`: range-check `0..=60`, then `as u8`;
otherwise `ArgumentError("sec out of range")`. -/
def TimeArgs.secondChecked (t : TimeArgs) : Except RubyError Int :=
  if 0 ≤ t.second ∧ t.second ≤ 60 then
    Except.ok (Int.emod t.second 256)
  else
    Except.error (ArgumentError.with_message "sec out of range")

/-- Embedding of `TimeArgs::nanoseconds`: range-check micros in
`0..=999_999`, then `(micros * 1000) as u32` (embedded as `emod 2^32`);
otherwise `ArgumentError("subsecx out of range")`. -/
def TimeArgs.nanoseconds (t : TimeArgs) : Except RubyError Int :=
  if 0 ≤ t.micros ∧ t.micros ≤ 999999 then
    Except.ok (Int.emod (t.micros * 1000) 4294967296)
  else
    Except.error (ArgumentError.with_message "subsecx out of range")

/-- A Ruby `Value` passed to `as_time_args`, characterised by the outcome of
the implicit `to_int` coercion on it: `some n` when it coerces to the
integer `n`, `none` when the coercion protocol fails. -/
structure Value where
  toIntResult : Option Int
deriving DecidableEq, Repr

/-- Modelled from the spec: the implicit-conversion helper `to_int`
(`src/artichoke-backend/src/convert/conv.rs` is not in the sampled source)
invokes the value's coercion method and re-checks the tag; a value that
does not coerce to an Integer is a type error. The exact failure message is
not specified by the spec and no claim depends on it; only the class name
`TypeError` matters (it is distinct from `ArgumentError`). The source's
subsequent `try_convert_into::<Option<i64>>(..).unwrap()` extraction of the
guaranteed Integer is fused into the `some` case. -/
def to_int (v : Value) : Except RubyError Int :=
  match v.toIntResult with
  | some n => Except.ok n
  | none => Except.error { name := "TypeError", message := "no implicit conversion into Integer" }

/-- The `wrong number of arguments (given N, expected 1..8)` message that
`as_time_args` assembles from byte slices. -/
def argCountMessage (n : Nat) : String :=
  "wrong number of arguments (given " ++ toString n ++ ", expected 1..8)"

/-- One assignment step of the `match i` inside the `as_time_args` loop:
positions 0‥6 set year, month, day, hour, minute, second, micros; position 7
is a NOOP (and is in fact skipped before coercion by the `continue`). -/
def setTimeArg (result : TimeArgs) (i : Nat) (arg : Int) : TimeArgs :=
  match i with
  | 0 => { result with year := arg }
  | 1 => { result with month := arg }
  | 2 => { result with day := arg }
  | 3 => { result with hour := arg }
  | 4 => { result with minute := arg }
  | 5 => { result with second := arg }
  | 6 => { result with micros := arg }
  | _ => result

/-- The `for (i, arg) in args.iter().enumerate()` loop of `as_time_args`:
index 7 is `continue`d before any `to_int` call; every other argument is
coerced with `to_int` (propagating its error) and stored at its position. -/
def timeArgsLoop : List Value → Nat → TimeArgs → Outcome TimeArgs
  | [], _, result => Outcome.ok result
  | arg :: rest, i, result =>
    if i = 7 then
      timeArgsLoop rest (i + 1) result
    else
      match to_int arg with
      | Except.error e => Outcome.raised e
      | Except.ok n => timeArgsLoop rest (i + 1) (setTimeArg result i n)

/-- Embedding of `as_time_args`: argument counts 0, 9, and ≥ 11 raise the
argument-count `ArgumentError`; counts 1‥8 run the coercion loop over the
defaults; count 10 hits `todo!()` (a panic). -/
def as_time_args (args : List Value) : Outcome TimeArgs :=
  let n := args.length
  if n = 0 ∨ n = 9 ∨ 11 ≤ n then
    Outcome.raised { name := "ArgumentError", message := argCountMessage n }
  else if n = 10 then
    Outcome.panicked "not yet implemented"
  else
    timeArgsLoop args 0 TimeArgs.default

/-- A `to_int` coercion failure is a `TypeError`, never an `ArgumentError`. -/
theorem to_int_error_name (v : Value) (e : RubyError) (h : to_int v = Except.error e) :
    e.name = "TypeError" := by
  cases hv : v.toIntResult with
  | some n => simp [to_int, hv] at h
  | none =>
    simp [to_int, hv] at h
    rw [← h]

/-- The coercion loop of `as_time_args` either succeeds or raises a
`TypeError` coming out of `to_int`; it never raises an `ArgumentError`. -/
theorem timeArgsLoop_ok_or_type_error (l : List Value) :
    ∀ i acc, (∃ t, timeArgsLoop l i acc = Outcome.ok t) ∨
      ∃ e, timeArgsLoop l i acc = Outcome.raised e ∧ e.name = "TypeError" := by
  induction l with
  | nil => exact fun i acc => Or.inl ⟨acc, rfl⟩
  | cons a rest ih =>
    intro i acc
    by_cases hi : i = 7
    · simpa [timeArgsLoop, hi] using ih (i + 1) acc
    · cases hto : to_int a with
      | error e =>
        refine Or.inr ⟨e, ?_, to_int_error_name a e hto⟩
        simp [timeArgsLoop, hi, hto]
      | ok n =>
        simpa [timeArgsLoop, hi, hto] using ih (i + 1) (setTimeArg acc i n)

/-- C1: a call to `as_time_args` with `N` arguments fails with the
`ArgumentError` whose message is exactly
`wrong number of arguments (given N, expected 1..8)` if and only if `N` is
0, 9, or at least 11; a 10-argument call panics (`todo!`) instead of
raising that argument-count error. -/
theorem as_time_args_argument_count (args : List Value) :
    (as_time_args args =
        Outcome.raised { name := "ArgumentError", message := argCountMessage args.length } ↔
      (args.length = 0 ∨ args.length = 9 ∨ 11 ≤ args.length)) ∧
    (args.length = 10 → as_time_args args = Outcome.panicked "not yet implemented") := by
  refine ⟨⟨fun h => ?_, fun h => ?_⟩, fun h10 => ?_⟩
  · by_contra hn
    push_neg at hn
    obtain ⟨h0, h9, h11⟩ := hn
    by_cases h10 : args.length = 10
    · simp [as_time_args, h0, h9, h10] at h
    · have hloop := timeArgsLoop_ok_or_type_error args 0 TimeArgs.default
      have hcond : ¬(args.length = 0 ∨ args.length = 9 ∨ 11 ≤ args.length) := by
        push_neg
        exact ⟨h0, h9, h11⟩
      simp only [as_time_args] at h
      rw [if_neg hcond, if_neg h10] at h
      rcases hloop with ⟨t, ht⟩ | ⟨e, he, hname⟩
      · rw [ht] at h
        exact absurd h (by simp)
      · rw [he] at h
        have : e = { name := "ArgumentError", message := argCountMessage args.length } := by
          injection h
        rw [this] at hname
        simp at hname
  · simp only [as_time_args]
    rw [if_pos h]
  · have hcond : ¬(args.length = 0 ∨ args.length = 9 ∨ 11 ≤ args.length) := by
      omega
    simp only [as_time_args]
    rw [if_neg hcond, if_pos h10]

/-- Witness for C1 at concrete inputs: the empty list raises the count
error and a 10-element list panics. -/
theorem as_time_args_argument_count_witness :
    as_time_args [] = Outcome.raised { name := "ArgumentError", message := argCountMessage 0 } ∧
    as_time_args (List.replicate 10 ⟨some 0⟩) = Outcome.panicked "not yet implemented" :=
  ⟨(as_time_args_argument_count []).1.mpr (Or.inl rfl),
   (as_time_args_argument_count (List.replicate 10 ⟨some 0⟩)).2 (by decide)⟩

/-- C2: each component accessor returns `Ok` of the stored component (the
`as u8` cast never truncating) exactly when that component is in its valid
range — month `1..=12`, day `1..=31`, hour `0..=23`, minute `0..=59`,
second `0..=60` — and otherwise returns an `ArgumentError` naming the
specific field (`mon`, `mday`, `hour`, `min`, `sec` out of range). -/
theorem timeargs_accessors (t : TimeArgs) :
    ((t.monthChecked = Except.ok t.month ↔ 1 ≤ t.month ∧ t.month ≤ 12) ∧
      (¬(1 ≤ t.month ∧ t.month ≤ 12) →
        t.monthChecked = Except.error (ArgumentError.with_message "mon out of range"))) ∧
    ((t.dayChecked = Except.ok t.day ↔ 1 ≤ t.day ∧ t.day ≤ 31) ∧
      (¬(1 ≤ t.day ∧ t.day ≤ 31) →
        t.dayChecked = Except.error (ArgumentError.with_message "mday out of range"))) ∧
    ((t.hourChecked = Except.ok t.hour ↔ 0 ≤ t.hour ∧ t.hour ≤ 23) ∧
      (¬(0 ≤ t.hour ∧ t.hour ≤ 23) →
        t.hourChecked = Except.error (ArgumentError.with_message "hour out of range"))) ∧
    ((t.minuteChecked = Except.ok t.minute ↔ 0 ≤ t.minute ∧ t.minute ≤ 59) ∧
      (¬(0 ≤ t.minute ∧ t.minute ≤ 59) →
        t.minuteChecked = Except.error (ArgumentError.with_message "min out of range"))) ∧
    ((t.secondChecked = Except.ok t.second ↔ 0 ≤ t.second ∧ t.second ≤ 60) ∧
      (¬(0 ≤ t.second ∧ t.second ≤ 60) →
        t.secondChecked = Except.error (ArgumentError.with_message "sec out of range"))) := by
  refine ⟨⟨?_, ?_⟩, ⟨?_, ?_⟩, ⟨?_, ?_⟩, ⟨?_, ?_⟩, ⟨?_, ?_⟩⟩
  · by_cases hr : 1 ≤ t.month ∧ t.month ≤ 12
    · simp only [TimeArgs.monthChecked, if_pos hr, Except.ok.injEq]
      refine iff_of_true ?_ hr
      refine Int.emod_eq_of_lt ?_ ?_ <;> omega
    · simp [TimeArgs.monthChecked, hr]
  · intro hr
    simp [TimeArgs.monthChecked, hr]
  · by_cases hr : 1 ≤ t.day ∧ t.day ≤ 31
    · simp only [TimeArgs.dayChecked, if_pos hr, Except.ok.injEq]
      refine iff_of_true ?_ hr
      refine Int.emod_eq_of_lt ?_ ?_ <;> omega
    · simp [TimeArgs.dayChecked, hr]
  · intro hr
    simp [TimeArgs.dayChecked, hr]
  · by_cases hr : 0 ≤ t.hour ∧ t.hour ≤ 23
    · simp only [TimeArgs.hourChecked, if_pos hr, Except.ok.injEq]
      refine iff_of_true ?_ hr
      refine Int.emod_eq_of_lt ?_ ?_ <;> omega
    · simp [TimeArgs.hourChecked, hr]
  · intro hr
    simp [TimeArgs.hourChecked, hr]
  · by_cases hr : 0 ≤ t.minute ∧ t.minute ≤ 59
    · simp only [TimeArgs.minuteChecked, if_pos hr, Except.ok.injEq]
      refine iff_of_true ?_ hr
      refine Int.emod_eq_of_lt ?_ ?_ <;> omega
    · simp [TimeArgs.minuteChecked, hr]
  · intro hr
    simp [TimeArgs.minuteChecked, hr]
  · by_cases hr : 0 ≤ t.second ∧ t.second ≤ 60
    · simp only [TimeArgs.secondChecked, if_pos hr, Except.ok.injEq]
      refine iff_of_true ?_ hr
      refine Int.emod_eq_of_lt ?_ ?_ <;> omega
    · simp [TimeArgs.secondChecked, hr]
  · intro hr
    simp [TimeArgs.secondChecked, hr]

/-- Witness for C2 at concrete inputs: month 13 is rejected with
`mon out of range`, day 31 is accepted. -/
theorem timeargs_accessors_witness :
    TimeArgs.monthChecked ⟨0, 13, 1, 0, 0, 0, 0⟩ =
      Except.error (ArgumentError.with_message "mon out of range") ∧
    TimeArgs.dayChecked ⟨0, 1, 31, 0, 0, 0, 0⟩ = Except.ok 31 :=
  ⟨(timeargs_accessors ⟨0, 13, 1, 0, 0, 0, 0⟩).1.2 (by decide),
   (timeargs_accessors ⟨0, 1, 31, 0, 0, 0, 0⟩).2.1.1.mpr (by decide)⟩

/-- C3: `nanoseconds` returns `Ok (micros * 1000)` — exactly, with no `u32`
wrap or truncation — precisely when the stored micros component is in
`0..=999_999`, and otherwise the `ArgumentError` `subsecx out of range`. -/
theorem nanoseconds_range (t : TimeArgs) :
    (0 ≤ t.micros ∧ t.micros ≤ 999999 →
      t.nanoseconds = Except.ok (t.micros * 1000)) ∧
    ((∃ v, t.nanoseconds = Except.ok v) ↔ 0 ≤ t.micros ∧ t.micros ≤ 999999) ∧
    (¬(0 ≤ t.micros ∧ t.micros ≤ 999999) →
      t.nanoseconds = Except.error (ArgumentError.with_message "subsecx out of range")) := by
  refine ⟨fun hr => ?_, ?_, fun hr => ?_⟩
  · simp only [TimeArgs.nanoseconds, if_pos hr, Except.ok.injEq]
    refine Int.emod_eq_of_lt ?_ ?_ <;> omega
  · by_cases hr : 0 ≤ t.micros ∧ t.micros ≤ 999999
    · simp [TimeArgs.nanoseconds, hr]
    · simp [TimeArgs.nanoseconds, hr]
  · simp [TimeArgs.nanoseconds, hr]

/-- Witness for C3 at concrete inputs: micros 1 yields 1000 nanoseconds,
micros 999_999 yields 999_999_000, micros 1_000_000 is rejected. -/
theorem nanoseconds_range_witness :
    TimeArgs.nanoseconds ⟨0, 1, 1, 0, 0, 0, 1⟩ = Except.ok 1000 ∧
    TimeArgs.nanoseconds ⟨0, 1, 1, 0, 0, 0, 999999⟩ = Except.ok 999999000 ∧
    TimeArgs.nanoseconds ⟨0, 1, 1, 0, 0, 0, 1000000⟩ =
      Except.error (ArgumentError.with_message "subsecx out of range") := by
  refine ⟨?_, ?_, (nanoseconds_range ⟨0, 1, 1, 0, 0, 0, 1000000⟩).2.2 (by decide)⟩
  · have h := (nanoseconds_range ⟨0, 1, 1, 0, 0, 0, 1⟩).1 (by decide)
    simpa using h
  · have h := (nanoseconds_range ⟨0, 1, 1, 0, 0, 0, 999999⟩).1 (by decide)
    simpa using h

/-- Appending different final elements at loop position 7 cannot change the
result of the coercion loop: index 7 is skipped. -/
theorem timeArgsLoop_eighth (x y : Value) :
    ∀ l : List Value, ∀ i acc, i + l.length = 7 →
      timeArgsLoop (l ++ [x]) i acc = timeArgsLoop (l ++ [y]) i acc := by
  intro l
  induction l with
  | nil =>
    intro i acc h
    have hi : i = 7 := by simpa using h
    subst hi
    simp [timeArgsLoop]
  | cons a rest ih =>
    intro i acc h
    have hlen : i + (rest.length + 1) = 7 := by simpa using h
    have hi : i ≠ 7 := by omega
    simp only [List.cons_append, timeArgsLoop, if_neg hi]
    cases hto : to_int a with
    | error e => rfl
    | ok n => exact ih (i + 1) (setTimeArg acc i n) (by omega)

/-- C4: two 8-element argument lists that agree on their first seven
elements give identical `as_time_args` results — the 8th positional
argument is skipped without `to_int` coercion or validation, so it never
influences the produced `TimeArgs` and never causes an error. -/
theorem as_time_args_eighth_ignored (a : List Value) (x y : Value) (h : a.length = 7) :
    as_time_args (a ++ [x]) = as_time_args (a ++ [y]) := by
  have hlenx : (a ++ [x]).length = 8 := by simp [h]
  have hleny : (a ++ [y]).length = 8 := by simp [h]
  simp only [as_time_args, hlenx, hleny]
  norm_num
  exact timeArgsLoop_eighth x y a 0 TimeArgs.default (by omega)

/-- Witness for C4 at a concrete input: with the first seven arguments
fixed, an 8th argument that fails `to_int` coercion and an 8th argument
that is an integer produce the same result. -/
theorem as_time_args_eighth_ignored_witness :
    as_time_args (List.replicate 7 ⟨some 3⟩ ++ [⟨none⟩]) =
      as_time_args (List.replicate 7 ⟨some 3⟩ ++ [⟨some 99⟩]) :=
  as_time_args_eighth_ignored (List.replicate 7 ⟨some 3⟩) ⟨none⟩ ⟨some 99⟩ (by decide)

/-- An infallible by-value converter between two types, the `Convert` trait
of `src/artichoke-backend/src/convert.rs`. -/
structure Convert (T U : Type) where
  convert : T → U

/-- An infallible by-mutable-borrow converter: `convert_mut` may update the
interpreter state `σ`, so it is embedded in state-passing style, the
`ConvertMut` trait of `src/artichoke-backend/src/convert.rs`. -/
structure ConvertMut (σ T U : Type) where
  convert_mut : σ → T → U × σ

/-- Embedding of the blanket `impl TryConvert for Artichoke where Artichoke:
Convert`: `try_convert(value)` is `Ok(Convert::convert(self, value))`. -/
def blanketTryConvert {T U : Type} (c : Convert T U) (value : T) : Except RubyError U :=
  Except.ok (c.convert value)

/-- Embedding of the blanket `impl TryConvertMut for Artichoke where
Artichoke: ConvertMut`: `try_convert_mut(value)` is
`Ok(ConvertMut::convert_mut(self, value))`. -/
def blanketTryConvertMut {σ T U : Type} (c : ConvertMut σ T U) (s : σ) (value : T) :
    Except RubyError U × σ :=
  let p := c.convert_mut s value
  (Except.ok p.1, p.2)

/-- C5: whenever an infallible `Convert` (resp. `ConvertMut`) conversion
exists, the blanket fallible converter satisfies
`try_convert v = Ok (convert v)` (resp. `try_convert_mut v =
Ok (convert_mut v)` with the same state update) for every input, and never
produces an error. -/
theorem blanket_try_convert_infallible {σ T U : Type} (c : Convert T U)
    (m : ConvertMut σ T U) (s : σ) (value : T) :
    blanketTryConvert c value = Except.ok (c.convert value) ∧
    (∀ e, blanketTryConvert c value ≠ Except.error e) ∧
    blanketTryConvertMut m s value =
      (Except.ok (m.convert_mut s value).1, (m.convert_mut s value).2) ∧
    (∀ e s2, blanketTryConvertMut m s value ≠ (Except.error e, s2)) := by
  refine ⟨rfl, fun e h => ?_, rfl, fun e s2 h => ?_⟩
  · exact absurd h (by simp [blanketTryConvert])
  · have h1 := congrArg Prod.fst h
    exact absurd h1 (by simp [blanketTryConvertMut])

/-- The VM-side runtime type tag (`Ruby` in `src/artichoke-backend/src/types.rs`):
the dynamic language's built-in classes plus the internal unreachable tag. -/
inductive Ruby where
  | nil
  | boolean
  | fixnum
  | float
  | symbol
  | stringTag
  | array
  | hash
  | object
  | exceptionTag
  | unreachable
deriving DecidableEq, Repr

/-- A raw engine value as observed by `Eval::eval` after the protected call:
its runtime type tag, and the class name used when the value is an exception
that `last_error` converts into a host error. -/
structure RValue where
  ty : Ruby
  klass : String
deriving DecidableEq, Repr

/-- Outcome of the `mrb_protect` call in `Eval::eval`: either the protected
region returned a value with no pending exception (`state == 0` and an
empty exception slot), or the engine's non-local exception signal was
caught and the pending-exception slot holds the exception (`state != 0`,
after which the code stores the exception into `(*mrb).exc`). -/
inductive ProtectResult where
  | returned (value : RValue)
  | caught (exc : RValue)
deriving DecidableEq, Repr

/-- A host-level error out of `Eval::eval`: either a Ruby exception read
from the pending-exception slot by `last_error`, or the `Fatal` host error
constructed for unreachable values. -/
inductive HostError where
  | raised (exc : RValue)
  | fatal (message : String)
deriving DecidableEq, Repr

/-- The exception class name a host error reports (`Exception::name`). -/
def HostError.name : HostError → String
  | HostError.raised exc => exc.klass
  | HostError.fatal _ => "fatal"

/-- Embedding of the post-call handling of `Eval::eval`
(`src/artichoke-backend/src/eval.rs`): if `last_error` finds a pending
exception it is returned as `Err`; otherwise the resulting value is
checked — an unreachable-tagged value becomes a `Fatal` error, anything
else is `Ok`. -/
def evalClassify (r : ProtectResult) : Except HostError RValue :=
  match r with
  | ProtectResult.caught exc => Except.error (HostError.raised exc)
  | ProtectResult.returned value =>
    if value.ty = Ruby.unreachable then
      Except.error (HostError.fatal "Unreachable Ruby value")
    else
      Except.ok value

/-- A source text for the modelled engine, characterised by whether it
parses and, when it does, the value it evaluates to. -/
structure Source where
  valid : Bool
  result : RValue
deriving DecidableEq, Repr

/-- Modelled from the spec: the engine's protected load entry point
(`mrb_load_nstring_cxt` behind `mrb_protect`; the engine itself is outside
the sampled source). Malformed input raises a `SyntaxError`-class exception
through the captured non-local jump and "must leave the engine in a fully
usable state for subsequent calls"; well-formed input returns its value.
The engine state `σ` is carried through unchanged on the failure path. -/
def engineProtect {σ : Type} (s : σ) (src : Source) : ProtectResult × σ :=
  if src.valid then
    (ProtectResult.returned src.result, s)
  else
    (ProtectResult.caught { ty := Ruby.exceptionTag, klass := "SyntaxError" }, s)

/-- `Eval::eval` over the modelled engine: run the protected call, then
apply the post-call classification of `evalClassify`. -/
def evalOn {σ : Type} (s : σ) (src : Source) : Except HostError RValue × σ :=
  let p := engineProtect s src
  (evalClassify p.1, p.2)

/-- C6: when the protected call completes without a pending engine
exception and the resulting value carries the internal unreachable tag,
`eval` returns the `Fatal` error `Unreachable Ruby value`; an
unreachable-tagged value is never returned as a successful result. -/
theorem eval_rejects_unreachable (v : RValue) (hv : v.ty = Ruby.unreachable) :
    evalClassify (ProtectResult.returned v) =
      Except.error (HostError.fatal "Unreachable Ruby value") ∧
    ∀ r u, evalClassify r = Except.ok u → u.ty ≠ Ruby.unreachable := by
  refine ⟨by simp [evalClassify, hv], fun r u h => ?_⟩
  cases r with
  | caught exc => simp [evalClassify] at h
  | returned value =>
    by_cases hu : value.ty = Ruby.unreachable
    · simp [evalClassify, hu] at h
    · simp only [evalClassify, if_neg hu, Except.ok.injEq] at h
      rw [← h]
      exact hu

/-- Witness for C6 at a concrete input: an unreachable-tagged result value
is turned into the `Fatal` host error. -/
theorem eval_rejects_unreachable_witness :
    evalClassify (ProtectResult.returned { ty := Ruby.unreachable, klass := "" }) =
      Except.error (HostError.fatal "Unreachable Ruby value") :=
  (eval_rejects_unreachable { ty := Ruby.unreachable, klass := "" } rfl).1

/-- C7: evaluating syntactically invalid source yields a
`SyntaxError`-class error, and the same engine instance remains fully
usable: a subsequent `eval` of valid source on the state left behind
succeeds with the expected value. -/
theorem eval_syntax_error_recoverable {σ : Type} (s : σ) (bad good : Source)
    (hbad : bad.valid = false) (hgood : good.valid = true)
    (hres : good.result.ty ≠ Ruby.unreachable) :
    (∃ e, (evalOn s bad).1 = Except.error e ∧ HostError.name e = "SyntaxError") ∧
    (evalOn (evalOn s bad).2 good).1 = Except.ok good.result := by
  constructor
  · refine ⟨HostError.raised { ty := Ruby.exceptionTag, klass := "SyntaxError" }, ?_, rfl⟩
    simp [evalOn, engineProtect, hbad, evalClassify]
  · simp [evalOn, engineProtect, hbad, hgood, evalClassify, hres]

/-- Witness for C7 at concrete inputs: a failing evaluation followed by a
succeeding one on the same engine state. -/
theorem eval_syntax_error_recoverable_witness :
    (∃ e, (evalOn (0 : Nat) { valid := false, result := { ty := Ruby.nil, klass := "" } }).1 =
        Except.error e ∧ HostError.name e = "SyntaxError") ∧
    (evalOn (evalOn (0 : Nat) { valid := false, result := { ty := Ruby.nil, klass := "" } }).2
        { valid := true, result := { ty := Ruby.fixnum, klass := "Integer" } }).1 =
      Except.ok { ty := Ruby.fixnum, klass := "Integer" } :=
  eval_syntax_error_recoverable (0 : Nat)
    { valid := false, result := { ty := Ruby.nil, klass := "" } }
    { valid := true, result := { ty := Ruby.fixnum, klass := "Integer" } }
    rfl rfl (by decide)

/-- A parse/eval context frame: the source name and starting line of one
nested evaluation (`state::parser::Context`). -/
structure Context where
  filename : String
  lineno : Nat
deriving DecidableEq, Repr

/-- The `Artichoke` state as seen by the `Parser` impl in
`src/artichoke-backend/src/parser.rs`: whether the raw `mrb` pointer is
non-null (`NonNull::new(mrb)` succeeding), and the underlying parser
state's context stack, most recent frame first. -/
structure ArtichokeState where
  mrbAlive : Bool
  context_stack : List Context
deriving DecidableEq, Repr

/-- Embedding of `Parser::push_context` for `Artichoke`: when the `mrb`
pointer is non-null the frame is pushed onto the underlying parser state's
stack; with a null pointer the call is a no-op. The underlying
`state::parser` push is modelled from the spec (its file is not in the
sampled source): `push(frame)` installs a new current frame. -/
def ArtichokeState.push_context (s : ArtichokeState) (context : Context) : ArtichokeState :=
  if s.mrbAlive then { s with context_stack := context :: s.context_stack } else s

/-- Embedding of `Parser::pop_context` for `Artichoke`: with a non-null
`mrb` the top frame (if any) is removed and returned; with a null pointer
`None` is returned and nothing changes. The underlying `state::parser` pop
is modelled from the spec: each pop removes exactly the most recently
pushed frame. -/
def ArtichokeState.pop_context (s : ArtichokeState) : Option Context × ArtichokeState :=
  if s.mrbAlive then
    match s.context_stack with
    | [] => (none, s)
    | c :: rest => (some c, { s with context_stack := rest })
  else
    (none, s)

/-- Embedding of `Parser::peek_context` for `Artichoke`
(`src/artichoke-backend/src/parser.rs` lines 44-46): the body is
`unimplemented!("cannot implement this function due to borrowing
restrictions of RefCell")`, so every call panics. -/
def ArtichokeState.peek_context (_ : ArtichokeState) : Outcome (Option Context) :=
  Outcome.panicked
    "not implemented: cannot implement this function due to borrowing restrictions of RefCell"

/-- Modelled from the spec: the underlying `state::parser` peek that the
eval tests reach through `interp.0.borrow().parser.peek_context()` — "peek
exposes the current frame's source name ... reading it requires only shared
access (no mutation)". It is a pure function of the stack: the most
recently pushed frame, or `None` at the root. -/
def ParserState.peek_context (stack : List Context) : Option Context :=
  stack.head?

/-- C8: on a live interpreter, pushing frames `A` then `B` and popping
twice restores the starting state exactly — the first pop returns `B` and
the second returns `A` (LIFO) — and popping or peeking with an empty stack
observes no frame. -/
theorem push_pop_lifo (s : ArtichokeState) (a b : Context) (h : s.mrbAlive = true) :
    ((s.push_context a).push_context b).pop_context = (some b, s.push_context a) ∧
    (s.push_context a).pop_context = (some a, s) ∧
    (s.context_stack = [] →
      s.pop_context = (none, s) ∧ ParserState.peek_context s.context_stack = none) := by
  obtain ⟨alive, stack⟩ := s
  rw [show alive = true from h]
  refine ⟨?_, ?_, fun he => ⟨?_, ?_⟩⟩
  · simp [ArtichokeState.push_context, ArtichokeState.pop_context]
  · simp [ArtichokeState.push_context, ArtichokeState.pop_context]
  · have he2 : stack = [] := he
    subst he2
    simp [ArtichokeState.pop_context]
  · have he2 : stack = [] := he
    simp [ParserState.peek_context, he2]

/-- Witness for C8 at a concrete live state: push `a.rb` then `b.rb`, the
first pop returns the `b.rb` frame and leaves the singleton stack, and a
pop on the empty stack observes no frame. -/
theorem push_pop_lifo_witness :
    ((ArtichokeState.push_context ⟨true, []⟩ ⟨"a.rb", 1⟩).push_context ⟨"b.rb", 1⟩).pop_context =
      (some ⟨"b.rb", 1⟩, ArtichokeState.push_context ⟨true, []⟩ ⟨"a.rb", 1⟩) ∧
    ArtichokeState.pop_context ⟨true, []⟩ = (none, ⟨true, []⟩) :=
  ⟨(push_pop_lifo ⟨true, []⟩ ⟨"a.rb", 1⟩ ⟨"b.rb", 1⟩ rfl).1,
   ((push_pop_lifo ⟨true, []⟩ ⟨"a.rb", 1⟩ ⟨"b.rb", 1⟩ rfl).2.2 rfl).1⟩

/-- C9 counterexample: on a concrete state whose stack holds one frame, the
trait-level `peek_context` does not return that frame (nor any `Option`
result) — it panics with the `unimplemented!` message. -/
theorem peek_context_counterexample :
    ArtichokeState.peek_context ⟨true, [⟨"a.rb", 1⟩]⟩ =
      Outcome.panicked
        "not implemented: cannot implement this function due to borrowing restrictions of RefCell" ∧
    ∀ r : Option Context, ArtichokeState.peek_context ⟨true, [⟨"a.rb", 1⟩]⟩ ≠ Outcome.ok r :=
  ⟨rfl, fun r h => by simp [ArtichokeState.peek_context] at h⟩

/-- C9 (amended): the trait-level `Parser::peek_context` for `Artichoke` is
unimplemented and panics on every state — it never returns a frame; the
current top frame is instead observed through the underlying state-parser
peek, a pure (hence non-mutating, shared-access) function returning `Some`
of the most recently pushed frame or `None` at the root. -/
theorem peek_context_amended (s : ArtichokeState) (c : Context) (rest : List Context) :
    (∀ r : Option Context, s.peek_context ≠ Outcome.ok r) ∧
    ParserState.peek_context (c :: rest) = some c ∧
    ParserState.peek_context ([] : List Context) = none := by
  refine ⟨fun r h => ?_, rfl, rfl⟩
  simp [ArtichokeState.peek_context] at h

/-- C10: a successful `as_time_args` call with `N` arguments (1 ≤ N ≤ 8)
takes the `TimeArgs::default` values — month 1, day 1, year, hour, minute,
second, micros 0 — for every component the caller did not supply, and the
`to_int`-coerced value of the corresponding argument for every supplied
component at positions `0..min(N, 7)`. -/
theorem as_time_args_defaults (args : List Value) (v : Nat → Int)
    (h1 : 1 ≤ args.length) (h8 : args.length ≤ 8)
    (hco : ∀ i, ∀ (hi : i < args.length), i ≠ 7 → to_int args[i] = Except.ok (v i)) :
    as_time_args args = Outcome.ok
      { year := v 0,
        month := if 2 ≤ args.length then v 1 else 1,
        day := if 3 ≤ args.length then v 2 else 1,
        hour := if 4 ≤ args.length then v 3 else 0,
        minute := if 5 ≤ args.length then v 4 else 0,
        second := if 6 ≤ args.length then v 5 else 0,
        micros := if 7 ≤ args.length then v 6 else 0 } := by
  rcases args with _ | ⟨a0, args⟩
  · exact absurd h1 (by decide)
  rcases args with _ | ⟨a1, args⟩
  · have e0 : to_int a0 = Except.ok (v 0) := hco 0 (by simp) (by decide)
    simp [as_time_args, timeArgsLoop, setTimeArg, TimeArgs.default, e0]
  rcases args with _ | ⟨a2, args⟩
  · have e0 : to_int a0 = Except.ok (v 0) := hco 0 (by simp) (by decide)
    have e1 : to_int a1 = Except.ok (v 1) := hco 1 (by simp) (by decide)
    simp [as_time_args, timeArgsLoop, setTimeArg, TimeArgs.default, e0, e1]
  rcases args with _ | ⟨a3, args⟩
  · have e0 : to_int a0 = Except.ok (v 0) := hco 0 (by simp) (by decide)
    have e1 : to_int a1 = Except.ok (v 1) := hco 1 (by simp) (by decide)
    have e2 : to_int a2 = Except.ok (v 2) := hco 2 (by simp) (by decide)
    simp [as_time_args, timeArgsLoop, setTimeArg, TimeArgs.default, e0, e1, e2]
  rcases args with _ | ⟨a4, args⟩
  · have e0 : to_int a0 = Except.ok (v 0) := hco 0 (by simp) (by decide)
    have e1 : to_int a1 = Except.ok (v 1) := hco 1 (by simp) (by decide)
    have e2 : to_int a2 = Except.ok (v 2) := hco 2 (by simp) (by decide)
    have e3 : to_int a3 = Except.ok (v 3) := hco 3 (by simp) (by decide)
    simp [as_time_args, timeArgsLoop, setTimeArg, TimeArgs.default, e0, e1, e2, e3]
  rcases args with _ | ⟨a5, args⟩
  · have e0 : to_int a0 = Except.ok (v 0) := hco 0 (by simp) (by decide)
    have e1 : to_int a1 = Except.ok (v 1) := hco 1 (by simp) (by decide)
    have e2 : to_int a2 = Except.ok (v 2) := hco 2 (by simp) (by decide)
    have e3 : to_int a3 = Except.ok (v 3) := hco 3 (by simp) (by decide)
    have e4 : to_int a4 = Except.ok (v 4) := hco 4 (by simp) (by decide)
    simp [as_time_args, timeArgsLoop, setTimeArg, TimeArgs.default, e0, e1, e2, e3, e4]
  rcases args with _ | ⟨a6, args⟩
  · have e0 : to_int a0 = Except.ok (v 0) := hco 0 (by simp) (by decide)
    have e1 : to_int a1 = Except.ok (v 1) := hco 1 (by simp) (by decide)
    have e2 : to_int a2 = Except.ok (v 2) := hco 2 (by simp) (by decide)
    have e3 : to_int a3 = Except.ok (v 3) := hco 3 (by simp) (by decide)
    have e4 : to_int a4 = Except.ok (v 4) := hco 4 (by simp) (by decide)
    have e5 : to_int a5 = Except.ok (v 5) := hco 5 (by simp) (by decide)
    simp [as_time_args, timeArgsLoop, setTimeArg, TimeArgs.default, e0, e1, e2, e3, e4, e5]
  rcases args with _ | ⟨a7, args⟩
  · have e0 : to_int a0 = Except.ok (v 0) := hco 0 (by simp) (by decide)
    have e1 : to_int a1 = Except.ok (v 1) := hco 1 (by simp) (by decide)
    have e2 : to_int a2 = Except.ok (v 2) := hco 2 (by simp) (by decide)
    have e3 : to_int a3 = Except.ok (v 3) := hco 3 (by simp) (by decide)
    have e4 : to_int a4 = Except.ok (v 4) := hco 4 (by simp) (by decide)
    have e5 : to_int a5 = Except.ok (v 5) := hco 5 (by simp) (by decide)
    have e6 : to_int a6 = Except.ok (v 6) := hco 6 (by simp) (by decide)
    simp [as_time_args, timeArgsLoop, setTimeArg, TimeArgs.default, e0, e1, e2, e3, e4, e5, e6]
  rcases args with _ | ⟨a8, args⟩
  · have e0 : to_int a0 = Except.ok (v 0) := hco 0 (by simp) (by decide)
    have e1 : to_int a1 = Except.ok (v 1) := hco 1 (by simp) (by decide)
    have e2 : to_int a2 = Except.ok (v 2) := hco 2 (by simp) (by decide)
    have e3 : to_int a3 = Except.ok (v 3) := hco 3 (by simp) (by decide)
    have e4 : to_int a4 = Except.ok (v 4) := hco 4 (by simp) (by decide)
    have e5 : to_int a5 = Except.ok (v 5) := hco 5 (by simp) (by decide)
    have e6 : to_int a6 = Except.ok (v 6) := hco 6 (by simp) (by decide)
    simp [as_time_args, timeArgsLoop, setTimeArg, TimeArgs.default, e0, e1, e2, e3, e4, e5, e6]
  · exfalso
    simp at h8

/-- Witness for C10 at a concrete input: two supplied arguments set year
and month, every other component keeps its default. -/
theorem as_time_args_defaults_witness :
    as_time_args [⟨some 2022⟩, ⟨some 2⟩] = Outcome.ok
      { year := 2022, month := 2, day := 1, hour := 0, minute := 0, second := 0, micros := 0 } := by
  have h := as_time_args_defaults [⟨some 2022⟩, ⟨some 2⟩]
    (fun i => if i = 0 then 2022 else 2) (by decide) (by decide) (by
      intro i hi h7
      simp only [List.length_cons, List.length_nil] at hi
      interval_cases i <;> rfl)
  simpa using h
